import Mathlib

/-!
Shallow embedding of `set_cache_disk.py` (SetDiskCache-for-Nuke).

The Python module defines a class `SetDiskCache` whose constructor selects a
writable, non-network-mounted cache location from an ordered list of preferred
volume names, falling back to the user's home directory, and on success sets
the environment variables `NUKE_TEMP_DIR` and `NUKE_DISK_CACHE`.

The embedding models the OS interface (mount status, the `mount` / `net use`
command outputs, directory-creation success, and the three-stage writability
probe outcome) as a read-only `World`, and the mutable filesystem/environment
(existing directories, existing files, `os.environ`) as a `SelectorState`
threaded through the functions.  Each Lean function mirrors one Python method.
-/

namespace SetCacheDisk

/-- Result of `platform.system()`. -/
inductive OS where
  | darwin
  | linux
  | windows
  | other (name : String)
deriving DecidableEq, Repr

/-- Outcome of the three filesystem operations performed by `_is_writable`
(`open(test_file, "w")`, `f.write("test")`, `os.remove(test_file)`):
either the open raises, the write raises (after the file was created), the
remove raises (after create and write), or all three succeed. -/
inductive ProbeOutcome where
  | openFail
  | writeFail
  | removeFail
  | ok
deriving DecidableEq, Repr

/-- Mutable state threaded through a run: the set of existing directories
(`os.path.isdir` / what `os.makedirs` created), the set of existing files
(for the `.write_test` marker), and `os.environ`. -/
structure SelectorState where
  dirs : List String
  files : List String
  env : List (String × String)
deriving DecidableEq, Repr

/-- Read-only model of the host OS as observed by one run:
`mounted` is the set of paths for which `os.path.ismount` is true;
`mountCmd` is the line-split output of the `mount` command (or `error` when
`subprocess.check_output` raises `CalledProcessError`); `netUseCmd` likewise
for `net use`; `mkdirOk p` says whether `os.makedirs p` succeeds;
`probeOf d` gives the outcome of the write probe inside directory `d`;
`home` is `os.path.expanduser("~")`. -/
structure World where
  os : OS
  mounted : List String
  mountCmd : Except Unit (List String)
  netUseCmd : Except Unit String
  mkdirOk : String → Bool
  probeOf : String → ProbeOutcome
  home : String

/-- Does `a` occur at the start of `b`?  (Helper for substring containment.) -/
def beginsWith : List Char → List Char → Bool
  | [], _ => true
  | _ :: _, [] => false
  | a :: as, b :: bs => a == b && beginsWith as bs

/-- Does `a` occur contiguously anywhere inside `b`?  (Helper.) -/
def containsSeq (a : List Char) : List Char → Bool
  | [] => beginsWith a []
  | b :: bs => beginsWith a (b :: bs) || containsSeq a bs

/-- Python's `needle in hay` on strings: case-sensitive substring test. -/
def substr_in (needle hay : String) : Bool :=
  containsSeq needle.data hay.data

/-- Is the first character of `s` equal to `c`?  (`s.startswith(c)` for a
one-character `c`.) -/
def strHeadIs (s : String) (c : Char) : Bool :=
  match s.data with
  | [] => false
  | d :: _ => d == c

/-- Is the last character of `s` equal to `c`?  (`s.endswith(c)` for a
one-character `c`.) -/
def strLastIs (s : String) (c : Char) : Bool :=
  match s.data.getLast? with
  | some d => d == c
  | none => false

/-- ASCII lowercasing of one character, as `str.lower` acts on the ASCII
strings (drive letters, `net use` output) this program lowercases. -/
def asciiLower (c : Char) : Char :=
  if 65 ≤ c.toNat && c.toNat ≤ 90 then Char.ofNat (c.toNat + 32) else c

/-- Python's `str.lower` (restricted to ASCII, which is all this program
lowercases). -/
def strLower (s : String) : String :=
  ⟨s.data.map asciiLower⟩

/-- Python's `posixpath.join` restricted to two components, as used on
macOS/Linux: an absolute second component replaces the first. -/
def pjoin (a b : String) : String :=
  if strHeadIs b '/' then b
  else if a = "" || strLastIs a '/' then a ++ b
  else a ++ "/" ++ b

/-- Python's `ntpath.join` restricted to the shapes this program uses
(second component relative, no drive letter in it). -/
def wjoin (a b : String) : String :=
  if a = "" || strLastIs a '\\' || strLastIs a '/' || strLastIs a ':' then a ++ b
  else a ++ "\\" ++ b

/-- The `os.path.join` of the host platform. -/
def joinOS (o : OS) (a b : String) : String :=
  match o with
  | OS.windows => wjoin a b
  | _ => pjoin a b

/-- Assignment `os.environ[k] = v`: update in place or append. -/
def setVar (env : List (String × String)) (k v : String) : List (String × String) :=
  match env with
  | [] => [(k, v)]
  | (k', v') :: rest => if k' = k then (k, v) :: rest else (k', v') :: setVar rest k v

/-- Lookup `os.environ.get(k)`. -/
def getVar (env : List (String × String)) (k : String) : Option String :=
  match env with
  | [] => none
  | (k', v') :: rest => if k' = k then some v' else getVar rest k

/-- Add a file if absent (what creating/truncating via `open(..., "w")` leaves). -/
def addFile (files : List String) (f : String) : List String :=
  if f ∈ files then files else f :: files

/-- Remove a file (what `os.remove` leaves). -/
def removeFile (files : List String) (f : String) : List String :=
  files.filter (fun g => g ≠ f)

/-- The network filesystem type tokens from `_is_network_drive`
(`network_filesystems = ['smbfs', 'nfs', 'afp', 'cifs', 'webdav']`). -/
def network_filesystems : List String :=
  ["smbfs", "nfs", "afp", "cifs", "webdav"]

/-- The `for line in mount_output.splitlines()` loop of `_is_network_drive`:
at the first line containing `volume_path`, return whether the line contains
any known network filesystem token; after the loop, return `False`. -/
def scanMountLines (volume_path : String) : List String → Bool
  | [] => false
  | line :: rest =>
    if substr_in volume_path line then
      network_filesystems.any (fun fs => substr_in fs line)
    else
      scanMountLines volume_path rest

/-- `SetDiskCache._is_network_drive`.  On Darwin/Linux it scans the `mount`
output; a `CalledProcessError` is caught and yields `False`.  On Windows it
checks `volume_path.lower() in output.lower()` over the `net use` output,
likewise returning `False` on a `CalledProcessError`.  Other platforms fall
through to the final `return False`. -/
def is_network_drive (w : World) (volume_path : String) : Bool :=
  match w.os with
  | OS.darwin =>
    (match w.mountCmd with
     | Except.ok lines => scanMountLines volume_path lines
     | Except.error _ => false)
  | OS.linux =>
    (match w.mountCmd with
     | Except.ok lines => scanMountLines volume_path lines
     | Except.error _ => false)
  | OS.windows =>
    (match w.netUseCmd with
     | Except.ok output => substr_in (strLower volume_path) (strLower output)
     | Except.error _ => false)
  | OS.other _ => false

/-- `SetDiskCache._ensure_directory`: `True` without any effect when the
directory exists; otherwise `os.makedirs(path, exist_ok=True)`, returning
`True` and recording the new directory on success and `False` (with no state
change) when `OSError` is caught. -/
def ensure_directory (w : World) (st : SelectorState) (path : String) :
    Bool × SelectorState :=
  if path ∈ st.dirs then (true, st)
  else if w.mkdirOk path then (true, { st with dirs := path :: st.dirs })
  else (false, st)

/-- `SetDiskCache._is_writable`: open `path/.write_test` for writing, write
`"test"`, remove the file, returning `True`; any `IOError` along the way is
caught and yields `False`.  The state records which stages ran: a failing
open creates nothing; a failure during write or remove leaves the marker
file behind; a full success removes it. -/
def is_writable (w : World) (st : SelectorState) (path : String) :
    Bool × SelectorState :=
  let test_file := joinOS w.os path ".write_test"
  match w.probeOf path with
  | ProbeOutcome.openFail => (false, st)
  | ProbeOutcome.writeFail => (false, { st with files := addFile st.files test_file })
  | ProbeOutcome.removeFail => (false, { st with files := addFile st.files test_file })
  | ProbeOutcome.ok => (true, { st with files := removeFile (addFile st.files test_file) test_file })

/-- Common body of `_find_suitable_cache_path_macos` (with `root` =
`"/Volumes"`) and `_find_suitable_cache_path_linux` (with `root` = `"/mnt"`);
the two Python methods are textually identical apart from that constant.
For each volume in order: skip if not mounted, skip if a network drive,
otherwise try to create and probe `join(volume_path, cache_dir)`, returning
it on success; after the loop, try the same on `join(home, cache_dir)`,
returning `None` when that also fails. -/
def find_suitable_posix (w : World) (root cache_dir : String) :
    List String → SelectorState → Option String × SelectorState
  | [], st =>
    let home_cache_path := pjoin w.home cache_dir
    let r1 := ensure_directory w st home_cache_path
    if r1.1 then
      let r2 := is_writable w r1.2 home_cache_path
      if r2.1 then (some home_cache_path, r2.2) else (none, r2.2)
    else (none, r1.2)
  | volume :: rest, st =>
    let volume_path := pjoin root volume
    if volume_path ∉ w.mounted then
      find_suitable_posix w root cache_dir rest st
    else if is_network_drive w volume_path then
      find_suitable_posix w root cache_dir rest st
    else
      let cache_path := pjoin volume_path cache_dir
      let r1 := ensure_directory w st cache_path
      if r1.1 then
        let r2 := is_writable w r1.2 cache_path
        if r2.1 then (some cache_path, r2.2)
        else find_suitable_posix w root cache_dir rest r2.2
      else find_suitable_posix w root cache_dir rest r1.2

/-- `SetDiskCache._find_suitable_cache_path_macos` (mount root `/Volumes`). -/
def find_suitable_cache_path_macos (w : World) (cache_dir : String)
    (volumes : List String) (st : SelectorState) : Option String × SelectorState :=
  find_suitable_posix w "/Volumes" cache_dir volumes st

/-- `SetDiskCache._find_suitable_cache_path_linux` (mount root `/mnt`). -/
def find_suitable_cache_path_linux (w : World) (cache_dir : String)
    (volumes : List String) (st : SelectorState) : Option String × SelectorState :=
  find_suitable_posix w "/mnt" cache_dir volumes st

/-- `SetDiskCache._find_suitable_cache_path_windows`: for each volume,
`volume_path = f"{volume}:\\"`; skip when `os.path.isdir(volume_path)` is
false (note: no network-drive check appears in this method); otherwise
create/probe `join(volume_path, cache_dir)`; then the same home fallback. -/
def find_suitable_cache_path_windows (w : World) (cache_dir : String) :
    List String → SelectorState → Option String × SelectorState
  | [], st =>
    let home_cache_path := wjoin w.home cache_dir
    let r1 := ensure_directory w st home_cache_path
    if r1.1 then
      let r2 := is_writable w r1.2 home_cache_path
      if r2.1 then (some home_cache_path, r2.2) else (none, r2.2)
    else (none, r1.2)
  | volume :: rest, st =>
    let volume_path := volume ++ ":\\"
    if volume_path ∉ st.dirs then
      find_suitable_cache_path_windows w cache_dir rest st
    else
      let cache_path := wjoin volume_path cache_dir
      let r1 := ensure_directory w st cache_path
      if r1.1 then
        let r2 := is_writable w r1.2 cache_path
        if r2.1 then (some cache_path, r2.2)
        else find_suitable_cache_path_windows w cache_dir rest r2.2
      else find_suitable_cache_path_windows w cache_dir rest r1.2

/-- The two `os.environ` assignments performed on success by each
`_set_cache_location_*` method. -/
def applyEnvVars (st : SelectorState) (p : String) : SelectorState :=
  { st with env := setVar (setVar st.env "NUKE_TEMP_DIR" p) "NUKE_DISK_CACHE" p }

/-- `SetDiskCache._set_cache_location_macos`: run the finder, and when a path
was found set `NUKE_TEMP_DIR` and `NUKE_DISK_CACHE` to it. -/
def set_cache_location_macos (w : World) (volumes : List String)
    (cache_dir : String) (st : SelectorState) : Option String × SelectorState :=
  let r := find_suitable_cache_path_macos w cache_dir volumes st
  match r.1 with
  | some p => (some p, applyEnvVars r.2 p)
  | none => (none, r.2)

/-- `SetDiskCache._set_cache_location_linux`. -/
def set_cache_location_linux (w : World) (volumes : List String)
    (cache_dir : String) (st : SelectorState) : Option String × SelectorState :=
  let r := find_suitable_cache_path_linux w cache_dir volumes st
  match r.1 with
  | some p => (some p, applyEnvVars r.2 p)
  | none => (none, r.2)

/-- `SetDiskCache._set_cache_location_windows`. -/
def set_cache_location_windows (w : World) (volumes : List String)
    (cache_dir : String) (st : SelectorState) : Option String × SelectorState :=
  let r := find_suitable_cache_path_windows w cache_dir volumes st
  match r.1 with
  | some p => (some p, applyEnvVars r.2 p)
  | none => (none, r.2)

/-- `SetDiskCache._handle_os_specific_cache_location`: dispatch on
`platform.system()`; on an unsupported system only a warning is logged and
`cache_path` stays `None`. -/
def handle_os_specific_cache_location (w : World) (volumes : List String)
    (cache_dir : String) (st : SelectorState) : Option String × SelectorState :=
  match w.os with
  | OS.darwin => set_cache_location_macos w volumes cache_dir st
  | OS.linux => set_cache_location_linux w volumes cache_dir st
  | OS.windows => set_cache_location_windows w volumes cache_dir st
  | OS.other _ => (none, st)

/-- The attributes of a constructed `SetDiskCache` object. -/
structure SetDiskCache where
  preferred_volumes : List String
  cache_dir : String
  cache_path : Option String
deriving DecidableEq, Repr

/-- `SetDiskCache.__init__`: record the arguments, then run
`_handle_os_specific_cache_location`, which fills in `cache_path` and
performs the side effects. -/
def SetDiskCache.run (w : World) (volumes : List String) (cache_dir : String)
    (st : SelectorState) : SetDiskCache × SelectorState :=
  let r := handle_os_specific_cache_location w volumes cache_dir st
  ({ preferred_volumes := volumes, cache_dir := cache_dir, cache_path := r.1 }, r.2)

/-! ### Derived notions used by the specification claims -/

/-- A directory can be "ensured" from state `st`: it already exists, or
`os.makedirs` would succeed on it. -/
def canEnsure (w : World) (st : SelectorState) (p : String) : Bool :=
  decide (p ∈ st.dirs) || w.mkdirOk p

/-- Relation between states across (part of) a run: the set of directories
only grows, and every added directory is one `os.makedirs` succeeded on. -/
def GoodExt (w : World) (st st' : SelectorState) : Prop :=
  st.dirs ⊆ st'.dirs ∧ ∀ d ∈ st'.dirs, d ∈ st.dirs ∨ w.mkdirOk d = true

/-- The macOS/Linux loop accepts a candidate volume exactly when it is
mounted, not a network drive, its cache directory exists or can be created,
and the write probe in that directory succeeds. -/
def suitable (w : World) (st : SelectorState) (root cache_dir volume : String) : Bool :=
  let vp := pjoin root volume
  decide (vp ∈ w.mounted) && ! is_network_drive w vp
    && canEnsure w st (pjoin vp cache_dir)
    && decide (w.probeOf (pjoin vp cache_dir) = ProbeOutcome.ok)

/-! ### Basic lemmas about the state-passing helpers -/

theorem GoodExt.rfl (w : World) (st : SelectorState) : GoodExt w st st :=
  ⟨fun _ h => h, fun _ h => Or.inl h⟩

theorem GoodExt.trans {w : World} {s1 s2 s3 : SelectorState}
    (h12 : GoodExt w s1 s2) (h23 : GoodExt w s2 s3) : GoodExt w s1 s3 := by
  refine ⟨fun d hd => h23.1 (h12.1 hd), fun d hd => ?_⟩
  rcases h23.2 d hd with h | h
  · exact h12.2 d h
  · exact Or.inr h

theorem ensure_directory_fst (w : World) (st : SelectorState) (p : String) :
    (ensure_directory w st p).1 = canEnsure w st p := by
  simp only [ensure_directory, canEnsure]
  split
  · simp [*]
  · split <;> simp_all

theorem ensure_directory_goodExt (w : World) (st : SelectorState) (p : String) :
    GoodExt w st (ensure_directory w st p).2 := by
  simp only [ensure_directory]
  split
  · exact GoodExt.rfl w st
  · split
    · refine ⟨fun d hd => List.mem_cons_of_mem _ hd, fun d hd => ?_⟩
      rcases List.mem_cons.mp hd with h | h
      · subst h; right; assumption
      · exact Or.inl h
    · exact GoodExt.rfl w st

theorem ensure_directory_env (w : World) (st : SelectorState) (p : String) :
    (ensure_directory w st p).2.env = st.env := by
  simp only [ensure_directory]
  split
  · rfl
  · split <;> rfl

theorem ensure_directory_files (w : World) (st : SelectorState) (p : String) :
    (ensure_directory w st p).2.files = st.files := by
  simp only [ensure_directory]
  split
  · rfl
  · split <;> rfl

theorem is_writable_fst (w : World) (st : SelectorState) (p : String) :
    (is_writable w st p).1 = decide (w.probeOf p = ProbeOutcome.ok) := by
  simp only [is_writable]
  cases h : w.probeOf p <;> simp [h]

theorem is_writable_dirs (w : World) (st : SelectorState) (p : String) :
    (is_writable w st p).2.dirs = st.dirs := by
  simp only [is_writable]
  cases h : w.probeOf p <;> rfl

theorem is_writable_env (w : World) (st : SelectorState) (p : String) :
    (is_writable w st p).2.env = st.env := by
  simp only [is_writable]
  cases h : w.probeOf p <;> rfl

theorem is_writable_goodExt (w : World) (st : SelectorState) (p : String) :
    GoodExt w st (is_writable w st p).2 := by
  constructor
  · intro d hd; rw [is_writable_dirs]; exact hd
  · intro d hd; rw [is_writable_dirs] at hd; exact Or.inl hd

theorem canEnsure_congr {w : World} {st st' : SelectorState}
    (h : GoodExt w st st') (p : String) : canEnsure w st' p = canEnsure w st p := by
  simp only [canEnsure]
  by_cases hp : p ∈ st'.dirs
  · rcases h.2 p hp with hmem | hok
    · simp [hp, hmem]
    · simp [hp, hok]
  · have hnp : p ∉ st.dirs := fun hc => hp (h.1 hc)
    simp [hp, hnp]

theorem suitable_congr {w : World} {st st' : SelectorState}
    (h : GoodExt w st st') (root cache_dir volume : String) :
    suitable w st' root cache_dir volume = suitable w st root cache_dir volume := by
  simp only [suitable]
  rw [canEnsure_congr h]

theorem goodExt_of_dirs_eq {w : World} {a b a' b' : SelectorState}
    (h : GoodExt w a b) (ha : a'.dirs = a.dirs) (hb : b'.dirs = b.dirs) :
    GoodExt w a' b' := by
  constructor
  · intro d hd; rw [hb]; exact h.1 (ha ▸ hd)
  · intro d hd; rw [ha]; exact h.2 d (hb ▸ hd)

theorem goodExt_ensure_congr {w : World} {st st' : SelectorState}
    (h : GoodExt w st st') (p : String) :
    GoodExt w (ensure_directory w st p).2 (ensure_directory w st' p).2 := by
  simp only [ensure_directory]
  by_cases h1 : p ∈ st.dirs
  · have h1' : p ∈ st'.dirs := h.1 h1
    simp only [h1, h1', if_pos, if_true]
    exact h
  · by_cases h1' : p ∈ st'.dirs
    · have hok : w.mkdirOk p = true := by
        rcases h.2 p h1' with hmem | hok
        · exact absurd hmem h1
        · exact hok
      simp only [h1, h1', if_neg, if_pos, if_true, hok, if_false]
      refine ⟨fun d hd => ?_, fun d hd => ?_⟩
      · rcases List.mem_cons.mp hd with rfl | hd
        · exact h1'
        · exact h.1 hd
      · rcases h.2 d hd with hmem | hk
        · exact Or.inl (List.mem_cons_of_mem _ hmem)
        · exact Or.inr hk
    · by_cases hok : w.mkdirOk p = true
      · simp only [h1, h1', hok, if_neg, if_true, if_false]
        refine ⟨fun d hd => ?_, fun d hd => ?_⟩
        · rcases List.mem_cons.mp hd with rfl | hd
          · exact List.mem_cons_self _ _
          · exact List.mem_cons_of_mem _ (h.1 hd)
        · rcases List.mem_cons.mp hd with rfl | hd
          · exact Or.inr hok
          · rcases h.2 d hd with hmem | hk
            · exact Or.inl (List.mem_cons_of_mem _ hmem)
            · exact Or.inr hk
      · simp only [h1, h1', hok, if_neg, if_false]
        simp only [Bool.false_eq_true, if_false]
        exact h

/-! ### Step lemmas for the macOS/Linux selection loop -/

theorem find_posix_step_notSuitable {w : World} {st : SelectorState}
    {root cache_dir volume : String}
    (h : suitable w st root cache_dir volume = false) :
    ∃ st', GoodExt w st st' ∧
      ∀ rest, find_suitable_posix w root cache_dir (volume :: rest) st
            = find_suitable_posix w root cache_dir rest st' := by
  by_cases hm : pjoin root volume ∈ w.mounted
  · by_cases hn : is_network_drive w (pjoin root volume) = true
    · refine ⟨st, GoodExt.rfl w st, fun rest => ?_⟩
      simp [find_suitable_posix, hm, hn]
    · by_cases hc : canEnsure w st (pjoin (pjoin root volume) cache_dir) = true
      · by_cases hp : w.probeOf (pjoin (pjoin root volume) cache_dir) = ProbeOutcome.ok
        · exfalso
          rw [suitable] at h
          simp only [hm, hn, hc, hp] at h
          simp at h
        · refine ⟨(is_writable w
              (ensure_directory w st (pjoin (pjoin root volume) cache_dir)).2
              (pjoin (pjoin root volume) cache_dir)).2,
            GoodExt.trans (ensure_directory_goodExt w st _) (is_writable_goodExt w _ _),
            fun rest => ?_⟩
          simp [find_suitable_posix, hm, hn, ensure_directory_fst, hc, is_writable_fst, hp]
      · refine ⟨st, GoodExt.rfl w st, fun rest => ?_⟩
        have hst : (ensure_directory w st (pjoin (pjoin root volume) cache_dir)).2 = st := by
          simp only [ensure_directory, canEnsure] at hc ⊢
          simp only [Bool.or_eq_true, decide_eq_true_eq] at hc
          push_neg at hc
          simp [hc.1, hc.2]
        simp only [find_suitable_posix]
        rw [if_neg (by simp [hm]), if_neg (by simp [hn])]
        rw [ensure_directory_fst]
        simp only [hc]
        simp [hst]
  · refine ⟨st, GoodExt.rfl w st, fun rest => ?_⟩
    simp [find_suitable_posix, hm]

theorem find_posix_step_suitable {w : World} {st : SelectorState}
    {root cache_dir volume : String}
    (h : suitable w st root cache_dir volume = true) :
    ∀ rest, find_suitable_posix w root cache_dir (volume :: rest) st
      = (some (pjoin (pjoin root volume) cache_dir),
         (is_writable w
            (ensure_directory w st (pjoin (pjoin root volume) cache_dir)).2
            (pjoin (pjoin root volume) cache_dir)).2) := by
  intro rest
  rw [suitable] at h
  simp only [Bool.and_eq_true, decide_eq_true_eq, Bool.not_eq_true'] at h
  obtain ⟨⟨⟨hm, hn⟩, hc⟩, hp⟩ := h
  simp [find_suitable_posix, hm, hn, ensure_directory_fst, hc, is_writable_fst, hp]

/-- First-match-wins for the macOS/Linux loop: if every volume in `pre` is
unsuitable (from the starting state) and `volume` is suitable, the selection
over `pre ++ volume :: post` returns the cache path under `volume`'s mount
root, and equals the run over `pre ++ [volume]` — the volumes in `post` are
never examined.  `pre.length` is the index `i` of the claim. -/
theorem find_posix_first_suitable (w : World) (root cache_dir : String) :
    ∀ (pre : List String) (st : SelectorState) (volume : String) (post : List String),
    (∀ u ∈ pre, suitable w st root cache_dir u = false) →
    suitable w st root cache_dir volume = true →
    find_suitable_posix w root cache_dir (pre ++ volume :: post) st
      = find_suitable_posix w root cache_dir (pre ++ [volume]) st
    ∧ (find_suitable_posix w root cache_dir (pre ++ volume :: post) st).1
      = some (pjoin (pjoin root volume) cache_dir) := by
  intro pre
  induction pre with
  | nil =>
    intro st volume post _ hv
    have hs := find_posix_step_suitable hv
    refine ⟨?_, ?_⟩
    · simp only [List.nil_append]
      rw [hs post, hs []]
    · simp only [List.nil_append]
      rw [hs post]
  | cons u pre ih =>
    intro st volume post hpre hv
    have hu : suitable w st root cache_dir u = false :=
      hpre u (List.mem_cons_self u pre)
    obtain ⟨st', hge, hstep⟩ := find_posix_step_notSuitable hu
    have hpre' : ∀ x ∈ pre, suitable w st' root cache_dir x = false := by
      intro x hx
      rw [suitable_congr hge]
      exact hpre x (List.mem_cons_of_mem _ hx)
    have hv' : suitable w st' root cache_dir volume = true := by
      rw [suitable_congr hge]; exact hv
    obtain ⟨ih1, ih2⟩ := ih st' volume post hpre' hv'
    have e1 : (u :: pre) ++ volume :: post = u :: (pre ++ volume :: post) := rfl
    have e2 : (u :: pre) ++ [volume] = u :: (pre ++ [volume]) := rfl
    refine ⟨?_, ?_⟩
    · rw [e1, e2, hstep _, hstep _, ih1]
    · rw [e1, hstep _, ih2]

/-- Running the macOS/Linux loop only ever adds directories that
`os.makedirs` succeeded on. -/
theorem find_posix_goodExt (w : World) (root cache_dir : String) :
    ∀ (volumes : List String) (st : SelectorState),
    GoodExt w st (find_suitable_posix w root cache_dir volumes st).2 := by
  intro volumes
  induction volumes with
  | nil =>
    intro st
    simp only [find_suitable_posix]
    split
    · split
      · exact GoodExt.trans (ensure_directory_goodExt w st _) (is_writable_goodExt w _ _)
      · exact GoodExt.trans (ensure_directory_goodExt w st _) (is_writable_goodExt w _ _)
    · exact ensure_directory_goodExt w st _
  | cons volume rest ih =>
    intro st
    simp only [find_suitable_posix]
    split
    · exact ih st
    · split
      · exact ih st
      · split
        · split
          · exact GoodExt.trans (ensure_directory_goodExt w st _) (is_writable_goodExt w _ _)
          · exact GoodExt.trans
              (GoodExt.trans (ensure_directory_goodExt w st _) (is_writable_goodExt w _ _))
              (ih _)
        · exact GoodExt.trans (ensure_directory_goodExt w st _) (ih _)

/-- The macOS/Linux loop never touches the environment. -/
theorem find_posix_env (w : World) (root cache_dir : String) :
    ∀ (volumes : List String) (st : SelectorState),
    (find_suitable_posix w root cache_dir volumes st).2.env = st.env := by
  intro volumes
  induction volumes with
  | nil =>
    intro st
    simp only [find_suitable_posix]
    split
    · split
      · rw [is_writable_env, ensure_directory_env]
      · rw [is_writable_env, ensure_directory_env]
    · rw [ensure_directory_env]
  | cons volume rest ih =>
    intro st
    simp only [find_suitable_posix]
    split
    · exact ih st
    · split
      · exact ih st
      · split
        · split
          · rw [is_writable_env, ensure_directory_env]
          · rw [ih, is_writable_env, ensure_directory_env]
        · rw [ih, ensure_directory_env]

/-- The value computed by the macOS/Linux loop is stable under a `GoodExt`
change of starting state: re-running after a previous run picks the same
path. -/
theorem find_posix_value_congr (w : World) (root cache_dir : String) :
    ∀ (volumes : List String) {st st' : SelectorState}, GoodExt w st st' →
    (find_suitable_posix w root cache_dir volumes st').1
      = (find_suitable_posix w root cache_dir volumes st).1 := by
  intro volumes
  induction volumes with
  | nil =>
    intro st st' h
    simp only [find_suitable_posix]
    rw [ensure_directory_fst, ensure_directory_fst, canEnsure_congr h]
    split
    · rw [is_writable_fst, is_writable_fst]
      split <;> rfl
    · rfl
  | cons volume rest ih =>
    intro st st' h
    simp only [find_suitable_posix]
    split
    · exact ih h
    · split
      · exact ih h
      · rw [ensure_directory_fst, ensure_directory_fst, canEnsure_congr h]
        split
        · rw [is_writable_fst, is_writable_fst]
          split
          · rfl
          · exact ih (goodExt_of_dirs_eq (goodExt_ensure_congr h _)
              (is_writable_dirs w _ _) (is_writable_dirs w _ _))
        · exact ih (goodExt_ensure_congr h _)

/-! ### The same lemmas for the Windows loop -/

theorem find_windows_goodExt (w : World) (cache_dir : String) :
    ∀ (volumes : List String) (st : SelectorState),
    GoodExt w st (find_suitable_cache_path_windows w cache_dir volumes st).2 := by
  intro volumes
  induction volumes with
  | nil =>
    intro st
    simp only [find_suitable_cache_path_windows]
    split
    · split
      · exact GoodExt.trans (ensure_directory_goodExt w st _) (is_writable_goodExt w _ _)
      · exact GoodExt.trans (ensure_directory_goodExt w st _) (is_writable_goodExt w _ _)
    · exact ensure_directory_goodExt w st _
  | cons volume rest ih =>
    intro st
    simp only [find_suitable_cache_path_windows]
    split
    · exact ih st
    · split
      · split
        · exact GoodExt.trans (ensure_directory_goodExt w st _) (is_writable_goodExt w _ _)
        · exact GoodExt.trans
            (GoodExt.trans (ensure_directory_goodExt w st _) (is_writable_goodExt w _ _))
            (ih _)
      · exact GoodExt.trans (ensure_directory_goodExt w st _) (ih _)

theorem find_windows_env (w : World) (cache_dir : String) :
    ∀ (volumes : List String) (st : SelectorState),
    (find_suitable_cache_path_windows w cache_dir volumes st).2.env = st.env := by
  intro volumes
  induction volumes with
  | nil =>
    intro st
    simp only [find_suitable_cache_path_windows]
    split
    · split
      · rw [is_writable_env, ensure_directory_env]
      · rw [is_writable_env, ensure_directory_env]
    · rw [ensure_directory_env]
  | cons volume rest ih =>
    intro st
    simp only [find_suitable_cache_path_windows]
    split
    · exact ih st
    · split
      · split
        · rw [is_writable_env, ensure_directory_env]
        · rw [ih, is_writable_env, ensure_directory_env]
      · rw [ih, ensure_directory_env]

/-- Value stability for the Windows loop.  The extra hypothesis says no
drive-root path of a listed volume can be created by `os.makedirs` (true of
a real filesystem, where a missing drive cannot be conjured up), so the
`os.path.isdir(volume_path)` test gives the same answer in both states. -/
theorem find_windows_value_congr (w : World) (cache_dir : String) :
    ∀ (volumes : List String) {st st' : SelectorState}, GoodExt w st st' →
    (∀ v ∈ volumes, w.mkdirOk (v ++ ":\\") = false) →
    (find_suitable_cache_path_windows w cache_dir volumes st').1
      = (find_suitable_cache_path_windows w cache_dir volumes st).1 := by
  intro volumes
  induction volumes with
  | nil =>
    intro st st' h _
    simp only [find_suitable_cache_path_windows]
    rw [ensure_directory_fst, ensure_directory_fst, canEnsure_congr h]
    split
    · rw [is_writable_fst, is_writable_fst]
      split <;> rfl
    · rfl
  | cons volume rest ih =>
    intro st st' h hroots
    have hrest : ∀ v ∈ rest, w.mkdirOk (v ++ ":\\") = false := by
      intro v hv; exact hroots v (List.mem_cons_of_mem _ hv)
    simp only [find_suitable_cache_path_windows]
    by_cases hm : (volume ++ ":\\") ∈ st.dirs
    · have hm' : (volume ++ ":\\") ∈ st'.dirs := h.1 hm
      rw [if_neg (show ¬(volume ++ ":\\" ∉ st'.dirs) from not_not_intro hm'),
          if_neg (show ¬(volume ++ ":\\" ∉ st.dirs) from not_not_intro hm)]
      rw [ensure_directory_fst, ensure_directory_fst, canEnsure_congr h]
      split
      · rw [is_writable_fst, is_writable_fst]
        split
        · rfl
        · exact ih (goodExt_of_dirs_eq (goodExt_ensure_congr h _)
            (is_writable_dirs w _ _) (is_writable_dirs w _ _)) hrest
      · exact ih (goodExt_ensure_congr h _) hrest
    · have hm' : (volume ++ ":\\") ∉ st'.dirs := by
        intro hc
        rcases h.2 _ hc with hmem | hok
        · exact hm hmem
        · rw [hroots volume (List.mem_cons_self volume rest)] at hok
          exact Bool.false_ne_true hok
      rw [if_pos (show volume ++ ":\\" ∉ st'.dirs from hm'),
          if_pos (show volume ++ ":\\" ∉ st.dirs from hm)]
      exact ih h hrest

/-! ### Environment-variable bookkeeping -/

theorem getVar_setVar_self (env : List (String × String)) (k v : String) :
    getVar (setVar env k v) k = some v := by
  induction env with
  | nil => simp [setVar, getVar]
  | cons kv rest ih =>
    obtain ⟨k', v'⟩ := kv
    by_cases h : k' = k
    · simp [setVar, getVar, h]
    · simp [setVar, getVar, h, ih]

theorem getVar_setVar_ne (env : List (String × String)) {k k' : String}
    (h : k' ≠ k) (v : String) : getVar (setVar env k v) k' = getVar env k' := by
  induction env with
  | nil =>
    simp only [setVar, getVar]
    rw [if_neg (fun hc : k = k' => h hc.symm)]
  | cons kv rest ih =>
    obtain ⟨k0, v0⟩ := kv
    by_cases h0 : k0 = k
    · subst h0
      have hne : ¬ k0 = k' := fun hc => h hc.symm
      simp [setVar, getVar, hne]
    · simp only [setVar, getVar, h0, if_false]
      by_cases h1 : k0 = k'
      · simp [getVar, h1]
      · simp [getVar, h1, ih]

theorem applyEnvVars_env (st : SelectorState) (p : String) :
    getVar (applyEnvVars st p).env "NUKE_TEMP_DIR" = some p
    ∧ getVar (applyEnvVars st p).env "NUKE_DISK_CACHE" = some p := by
  constructor
  · rw [applyEnvVars]
    rw [getVar_setVar_ne _ (by decide) _, getVar_setVar_self]
  · rw [applyEnvVars]
    rw [getVar_setVar_self]

theorem handle_env_found (w : World) (vols : List String) (cd : String)
    (st : SelectorState) (p : String)
    (h : (handle_os_specific_cache_location w vols cd st).1 = some p) :
    getVar (handle_os_specific_cache_location w vols cd st).2.env "NUKE_TEMP_DIR" = some p
    ∧ getVar (handle_os_specific_cache_location w vols cd st).2.env "NUKE_DISK_CACHE"
        = some p := by
  rcases w with ⟨os, mounted, mountCmd, netUseCmd, mkdirOk, probeOf, home⟩
  cases os with
  | darwin =>
    simp only [handle_os_specific_cache_location, set_cache_location_macos] at h ⊢
    cases hf : (find_suitable_cache_path_macos
        ⟨OS.darwin, mounted, mountCmd, netUseCmd, mkdirOk, probeOf, home⟩ cd vols st).1 with
    | none =>
      rw [hf] at h
      exact Option.noConfusion h
    | some q =>
      rw [hf] at h
      have hq : q = p := Option.some.inj h
      subst hq
      exact applyEnvVars_env _ _
  | linux =>
    simp only [handle_os_specific_cache_location, set_cache_location_linux] at h ⊢
    cases hf : (find_suitable_cache_path_linux
        ⟨OS.linux, mounted, mountCmd, netUseCmd, mkdirOk, probeOf, home⟩ cd vols st).1 with
    | none =>
      rw [hf] at h
      exact Option.noConfusion h
    | some q =>
      rw [hf] at h
      have hq : q = p := Option.some.inj h
      subst hq
      exact applyEnvVars_env _ _
  | windows =>
    simp only [handle_os_specific_cache_location, set_cache_location_windows] at h ⊢
    cases hf : (find_suitable_cache_path_windows
        ⟨OS.windows, mounted, mountCmd, netUseCmd, mkdirOk, probeOf, home⟩ cd vols st).1 with
    | none =>
      rw [hf] at h
      exact Option.noConfusion h
    | some q =>
      rw [hf] at h
      have hq : q = p := Option.some.inj h
      subst hq
      exact applyEnvVars_env _ _
  | other name =>
    simp only [handle_os_specific_cache_location] at h
    exact Option.noConfusion h

theorem handle_env_notFound (w : World) (vols : List String) (cd : String)
    (st : SelectorState)
    (h : (handle_os_specific_cache_location w vols cd st).1 = none) :
    (handle_os_specific_cache_location w vols cd st).2.env = st.env := by
  rcases w with ⟨os, mounted, mountCmd, netUseCmd, mkdirOk, probeOf, home⟩
  cases os with
  | darwin =>
    simp only [handle_os_specific_cache_location, set_cache_location_macos] at h ⊢
    cases hf : (find_suitable_cache_path_macos
        ⟨OS.darwin, mounted, mountCmd, netUseCmd, mkdirOk, probeOf, home⟩ cd vols st).1 with
    | none => exact find_posix_env _ _ _ vols st
    | some q =>
      rw [hf] at h
      exact Option.noConfusion h
  | linux =>
    simp only [handle_os_specific_cache_location, set_cache_location_linux] at h ⊢
    cases hf : (find_suitable_cache_path_linux
        ⟨OS.linux, mounted, mountCmd, netUseCmd, mkdirOk, probeOf, home⟩ cd vols st).1 with
    | none => exact find_posix_env _ _ _ vols st
    | some q =>
      rw [hf] at h
      exact Option.noConfusion h
  | windows =>
    simp only [handle_os_specific_cache_location, set_cache_location_windows] at h ⊢
    cases hf : (find_suitable_cache_path_windows
        ⟨OS.windows, mounted, mountCmd, netUseCmd, mkdirOk, probeOf, home⟩ cd vols st).1 with
    | none => exact find_windows_env _ _ vols st
    | some q =>
      rw [hf] at h
      exact Option.noConfusion h
  | other name => rfl

theorem applyEnvVars_dirs (st : SelectorState) (p : String) :
    (applyEnvVars st p).dirs = st.dirs := rfl

theorem set_cache_location_macos_fst (w : World) (vols : List String)
    (cd : String) (st : SelectorState) :
    (set_cache_location_macos w vols cd st).1
      = (find_suitable_cache_path_macos w cd vols st).1 := by
  simp only [set_cache_location_macos]
  cases hf : (find_suitable_cache_path_macos w cd vols st).1 <;> rfl

theorem set_cache_location_linux_fst (w : World) (vols : List String)
    (cd : String) (st : SelectorState) :
    (set_cache_location_linux w vols cd st).1
      = (find_suitable_cache_path_linux w cd vols st).1 := by
  simp only [set_cache_location_linux]
  cases hf : (find_suitable_cache_path_linux w cd vols st).1 <;> rfl

theorem set_cache_location_windows_fst (w : World) (vols : List String)
    (cd : String) (st : SelectorState) :
    (set_cache_location_windows w vols cd st).1
      = (find_suitable_cache_path_windows w cd vols st).1 := by
  simp only [set_cache_location_windows]
  cases hf : (find_suitable_cache_path_windows w cd vols st).1 <;> rfl

/-- An entire constructor run only grows the directory set, and every added
directory is one `os.makedirs` succeeded on. -/
theorem handle_goodExt (w : World) (vols : List String) (cd : String)
    (st : SelectorState) :
    GoodExt w st (handle_os_specific_cache_location w vols cd st).2 := by
  rcases w with ⟨os, mounted, mountCmd, netUseCmd, mkdirOk, probeOf, home⟩
  cases os with
  | darwin =>
    simp only [handle_os_specific_cache_location, set_cache_location_macos]
    cases hf : (find_suitable_cache_path_macos
        ⟨OS.darwin, mounted, mountCmd, netUseCmd, mkdirOk, probeOf, home⟩ cd vols st).1 with
    | none => exact find_posix_goodExt _ _ _ vols st
    | some q =>
      exact goodExt_of_dirs_eq (find_posix_goodExt _ "/Volumes" cd vols st) rfl rfl
  | linux =>
    simp only [handle_os_specific_cache_location, set_cache_location_linux]
    cases hf : (find_suitable_cache_path_linux
        ⟨OS.linux, mounted, mountCmd, netUseCmd, mkdirOk, probeOf, home⟩ cd vols st).1 with
    | none => exact find_posix_goodExt _ _ _ vols st
    | some q =>
      exact goodExt_of_dirs_eq (find_posix_goodExt _ "/mnt" cd vols st) rfl rfl
  | windows =>
    simp only [handle_os_specific_cache_location, set_cache_location_windows]
    cases hf : (find_suitable_cache_path_windows
        ⟨OS.windows, mounted, mountCmd, netUseCmd, mkdirOk, probeOf, home⟩ cd vols st).1 with
    | none => exact find_windows_goodExt _ cd vols st
    | some q =>
      exact goodExt_of_dirs_eq (find_windows_goodExt _ cd vols st) rfl rfl
  | other name => exact GoodExt.rfl _ st

/-- The decision value of a run is stable across a `GoodExt` state change
(with the Windows drive-root realism hypothesis). -/
theorem handle_value_congr (w : World) (vols : List String) (cd : String)
    {st st' : SelectorState} (hge : GoodExt w st st')
    (hwin : w.os = OS.windows → ∀ v ∈ vols, w.mkdirOk (v ++ ":\\") = false) :
    (handle_os_specific_cache_location w vols cd st').1
      = (handle_os_specific_cache_location w vols cd st).1 := by
  rcases w with ⟨os, mounted, mountCmd, netUseCmd, mkdirOk, probeOf, home⟩
  cases os with
  | darwin =>
    show (set_cache_location_macos _ vols cd st').1 = (set_cache_location_macos _ vols cd st).1
    rw [set_cache_location_macos_fst, set_cache_location_macos_fst]
    exact find_posix_value_congr _ "/Volumes" cd vols hge
  | linux =>
    show (set_cache_location_linux _ vols cd st').1 = (set_cache_location_linux _ vols cd st).1
    rw [set_cache_location_linux_fst, set_cache_location_linux_fst]
    exact find_posix_value_congr _ "/mnt" cd vols hge
  | windows =>
    show (set_cache_location_windows _ vols cd st').1 = (set_cache_location_windows _ vols cd st).1
    rw [set_cache_location_windows_fst, set_cache_location_windows_fst]
    exact find_windows_value_congr _ cd vols hge (hwin rfl)
  | other name => rfl

/-! ### Mount-table scanning and non-selection of network volumes -/

theorem scanMountLines_first (vp line : String) (post : List String) :
    ∀ (pre : List String), (∀ l ∈ pre, substr_in vp l = false) →
    substr_in vp line = true →
    scanMountLines vp (pre ++ line :: post)
      = network_filesystems.any (fun fs => substr_in fs line) := by
  intro pre
  induction pre with
  | nil =>
    intro _ hline
    simp [scanMountLines, hline]
  | cons l pre ih =>
    intro hpre hline
    have hl : substr_in vp l = false := hpre l (List.mem_cons_self l pre)
    simp only [List.cons_append, scanMountLines, hl, Bool.false_eq_true, if_false]
    exact ih (fun x hx => hpre x (List.mem_cons_of_mem _ hx)) hline

theorem scanMountLines_none (vp : String) :
    ∀ (lines : List String), (∀ l ∈ lines, substr_in vp l = false) →
    scanMountLines vp lines = false := by
  intro lines
  induction lines with
  | nil => intro _; rfl
  | cons l rest ih =>
    intro h
    have hl : substr_in vp l = false := h l (List.mem_cons_self l rest)
    simp only [scanMountLines, hl, Bool.false_eq_true, if_false]
    exact ih (fun x hx => h x (List.mem_cons_of_mem _ hx))

/-- A volume path the network detector flags is never the source of the
returned cache path in the macOS/Linux loop, provided no other candidate
and not the home fallback aliases to the very same joined cache path. -/
theorem find_posix_never_network (w : World) (root cache_dir : String) :
    ∀ (vols : List String) (st : SelectorState) (vp : String),
    is_network_drive w vp = true →
    (∀ v ∈ vols, pjoin root v ≠ vp →
        pjoin (pjoin root v) cache_dir ≠ pjoin vp cache_dir) →
    pjoin w.home cache_dir ≠ pjoin vp cache_dir →
    (find_suitable_posix w root cache_dir vols st).1 ≠ some (pjoin vp cache_dir) := by
  intro vols
  induction vols with
  | nil =>
    intro st vp _ _ hhome
    simp only [find_suitable_posix]
    split
    · split
      · exact fun hc => hhome (Option.some.inj hc)
      · exact fun hc => Option.noConfusion hc
    · exact fun hc => Option.noConfusion hc
  | cons v rest ih =>
    intro st vp hnet halias hhome
    have hrest : ∀ x ∈ rest, pjoin root x ≠ vp →
        pjoin (pjoin root x) cache_dir ≠ pjoin vp cache_dir :=
      fun x hx => halias x (List.mem_cons_of_mem _ hx)
    by_cases hs : suitable w st root cache_dir v = true
    · rw [find_posix_step_suitable hs rest]
      intro hc
      have heq : pjoin (pjoin root v) cache_dir = pjoin vp cache_dir :=
        Option.some.inj hc
      by_cases hv : pjoin root v = vp
      · have hloc : is_network_drive w (pjoin root v) = false := by
          rw [suitable] at hs
          simp only [Bool.and_eq_true, Bool.not_eq_true'] at hs
          exact hs.1.1.2
        rw [hv] at hloc
        rw [hloc] at hnet
        exact Bool.false_ne_true hnet
      · exact halias v (List.mem_cons_self v rest) hv heq
    · have hs' : suitable w st root cache_dir v = false := by
        revert hs
        cases suitable w st root cache_dir v <;> simp
      obtain ⟨st', _, hstep⟩ := find_posix_step_notSuitable hs'
      rw [hstep rest]
      exact ih st' vp hnet hrest hhome

/-! ### Concrete worlds used by witnesses and counterexamples -/

/-- A macOS host: `FastSSD` is not mounted, `RAID` is a mounted local APFS
volume, `NetVol` is a mounted SMB share; directory creation and the write
probe always succeed. -/
def wDarwin : World :=
  { os := OS.darwin
    mounted := ["/Volumes/RAID", "/Volumes/NetVol"]
    mountCmd := Except.ok
      ["/dev/disk2 on /Volumes/RAID (apfs, local, journaled)",
       "//user@server/NetVol on /Volumes/NetVol (smbfs, nodev, nosuid)"]
    netUseCmd := Except.error ()
    mkdirOk := fun _ => true
    probeOf := fun _ => ProbeOutcome.ok
    home := "/Users/artist" }

/-- A macOS host whose `mount` command exits nonzero. -/
def wErr : World :=
  { os := OS.darwin
    mounted := ["/Volumes/RAID", "/Volumes/NetVol"]
    mountCmd := Except.error ()
    netUseCmd := Except.error ()
    mkdirOk := fun _ => true
    probeOf := fun _ => ProbeOutcome.ok
    home := "/Users/artist" }

/-- A macOS host where every write probe fails during the write (e.g. the
disk fills up after the marker file was created). -/
def wWriteFail : World :=
  { os := OS.darwin
    mounted := ["/Volumes/RAID", "/Volumes/NetVol"]
    mountCmd := Except.ok
      ["/dev/disk2 on /Volumes/RAID (apfs, local, journaled)"]
    netUseCmd := Except.error ()
    mkdirOk := fun _ => true
    probeOf := fun _ => ProbeOutcome.writeFail
    home := "/Users/artist" }

/-- A Windows host where drive `Z:` is a mapped network drive (it appears in
the `net use` output) yet is accessible as a directory and writable. -/
def wWin : World :=
  { os := OS.windows
    mounted := []
    mountCmd := Except.error ()
    netUseCmd := Except.ok "OK           Z:\\        \\\\server\\share   Microsoft Windows Network"
    mkdirOk := fun _ => true
    probeOf := fun _ => ProbeOutcome.ok
    home := "C:\\Users\\artist" }

/-- An unsupported host. -/
def wOther : World :=
  { os := OS.other "FreeBSD"
    mounted := []
    mountCmd := Except.error ()
    netUseCmd := Except.error ()
    mkdirOk := fun _ => true
    probeOf := fun _ => ProbeOutcome.ok
    home := "/home/artist" }

/-- A pristine starting state. -/
def st0 : SelectorState := { dirs := [], files := [], env := [] }

/-- A state in which drive `Z:` exists as a directory. -/
def stWin : SelectorState := { dirs := ["Z:\\"], files := [], env := [] }

/-- A state with one pre-existing directory. -/
def stDirs : SelectorState := { dirs := ["/existing"], files := [], env := [] }

/-! ### The specification claims -/

/-- C1: for every list of preferred volumes, if the first candidate that is
mounted, non-network, and writable (after directory creation) sits after the
unsuitable block `pre` (its index is `pre.length`), then the macOS selector
returns `Found (join (join "/Volumes" volume) cache_dir)` — so the result
path's parent is that candidate's mount root, no earlier candidate is
selected, and the run is identical to the run on the list truncated right
after that candidate: later candidates are never probed. -/
theorem claim_C1_first_suitable_selected (w : World) (cache_dir : String)
    (pre : List String) (volume : String) (post : List String) (st : SelectorState)
    (hpre : ∀ u ∈ pre, suitable w st "/Volumes" cache_dir u = false)
    (hv : suitable w st "/Volumes" cache_dir volume = true) :
    (find_suitable_cache_path_macos w cache_dir (pre ++ volume :: post) st).1
      = some (pjoin (pjoin "/Volumes" volume) cache_dir)
    ∧ find_suitable_cache_path_macos w cache_dir (pre ++ volume :: post) st
      = find_suitable_cache_path_macos w cache_dir (pre ++ [volume]) st := by
  obtain ⟨h1, h2⟩ :=
    find_posix_first_suitable w "/Volumes" cache_dir pre st volume post hpre hv
  exact ⟨h2, h1⟩

/-- C1 witness: `FastSSD` (unmounted) is skipped, `RAID` is selected, and
`NetVol` is never examined. -/
theorem claim_C1_witness :
    (find_suitable_cache_path_macos wDarwin "NukeCache"
        (["FastSSD"] ++ "RAID" :: ["NetVol"]) st0).1
      = some (pjoin (pjoin "/Volumes" "RAID") "NukeCache")
    ∧ find_suitable_cache_path_macos wDarwin "NukeCache"
        (["FastSSD"] ++ "RAID" :: ["NetVol"]) st0
      = find_suitable_cache_path_macos wDarwin "NukeCache" (["FastSSD"] ++ ["RAID"]) st0 :=
  claim_C1_first_suitable_selected wDarwin "NukeCache" ["FastSSD"] "RAID" ["NetVol"] st0
    (by decide) (by decide)

/-- C2 counterexample: the claim fails on Windows.  Drive `Z:` appears in
the `net use` mappings — the program's own network detector flags it — and it
is accessible as a directory, yet the Windows selector (which never calls
`_is_network_drive`) returns its cache path. -/
theorem claim_C2_counterexample :
    is_network_drive wWin "Z:\\" = true
    ∧ "Z:\\" ∈ stWin.dirs
    ∧ ((SetDiskCache.run wWin ["Z"] "NukeCache" stWin).1).cache_path
        = some "Z:\\NukeCache" :=
  ⟨by decide, by decide, by decide⟩

/-- C2 amended: on macOS and Linux, a volume the network detector flags is
never the selected candidate — its cache path is never returned, provided no
distinct candidate and not the home fallback joins to the very same cache
path.  (On Windows the selector performs no network check at all, see the
counterexample.) -/
theorem claim_C2_network_never_selected (w : World) (cache_dir : String)
    (vols : List String) (st : SelectorState) (volume : String) :
    (is_network_drive w (pjoin "/Volumes" volume) = true →
      (∀ v ∈ vols, pjoin "/Volumes" v ≠ pjoin "/Volumes" volume →
        pjoin (pjoin "/Volumes" v) cache_dir
          ≠ pjoin (pjoin "/Volumes" volume) cache_dir) →
      pjoin w.home cache_dir ≠ pjoin (pjoin "/Volumes" volume) cache_dir →
      (find_suitable_cache_path_macos w cache_dir vols st).1
        ≠ some (pjoin (pjoin "/Volumes" volume) cache_dir))
    ∧ (is_network_drive w (pjoin "/mnt" volume) = true →
      (∀ v ∈ vols, pjoin "/mnt" v ≠ pjoin "/mnt" volume →
        pjoin (pjoin "/mnt" v) cache_dir
          ≠ pjoin (pjoin "/mnt" volume) cache_dir) →
      pjoin w.home cache_dir ≠ pjoin (pjoin "/mnt" volume) cache_dir →
      (find_suitable_cache_path_linux w cache_dir vols st).1
        ≠ some (pjoin (pjoin "/mnt" volume) cache_dir)) :=
  ⟨fun hnet halias hhome =>
      find_posix_never_network w "/Volumes" cache_dir vols st _ hnet halias hhome,
   fun hnet halias hhome =>
      find_posix_never_network w "/mnt" cache_dir vols st _ hnet halias hhome⟩

/-- C2 witness: the mounted SMB share `NetVol` is never selected on macOS. -/
theorem claim_C2_witness :
    (find_suitable_cache_path_macos wDarwin "NukeCache" ["RAID", "NetVol"] st0).1
      ≠ some (pjoin (pjoin "/Volumes" "NetVol") "NukeCache") :=
  (claim_C2_network_never_selected wDarwin "NukeCache" ["RAID", "NetVol"] st0 "NetVol").1
    (by decide) (by decide) (by decide)

/-- C3: after a constructor run, `NUKE_TEMP_DIR` and `NUKE_DISK_CACHE` are
both set to the resolved cache path exactly when a suitable path was found;
when the result is `NotFound` (`cache_path = none`) the environment is left
untouched, and no exception is raised (the embedding is a total function). -/
theorem claim_C3_env_vars_iff_found (w : World) (vols : List String)
    (cache_dir : String) (st : SelectorState) :
    (∀ p, (SetDiskCache.run w vols cache_dir st).1.cache_path = some p →
      getVar (SetDiskCache.run w vols cache_dir st).2.env "NUKE_TEMP_DIR" = some p
      ∧ getVar (SetDiskCache.run w vols cache_dir st).2.env "NUKE_DISK_CACHE" = some p)
    ∧ ((SetDiskCache.run w vols cache_dir st).1.cache_path = none →
      (SetDiskCache.run w vols cache_dir st).2.env = st.env) :=
  ⟨fun p hp => handle_env_found w vols cache_dir st p hp,
   fun hn => handle_env_notFound w vols cache_dir st hn⟩

/-- C3 witness: a successful macOS run sets both variables to the chosen
path. -/
theorem claim_C3_witness :
    getVar (SetDiskCache.run wDarwin ["RAID"] "NukeCache" st0).2.env "NUKE_TEMP_DIR"
      = some "/Volumes/RAID/NukeCache"
    ∧ getVar (SetDiskCache.run wDarwin ["RAID"] "NukeCache" st0).2.env "NUKE_DISK_CACHE"
      = some "/Volumes/RAID/NukeCache" :=
  (claim_C3_env_vars_iff_found wDarwin ["RAID"] "NukeCache" st0).1
    "/Volumes/RAID/NukeCache" (by decide)

/-- C4 counterexample: a probe failure during the write (after
`open(test_file, "w")` created the marker) returns `False` but leaves the
marker file `.write_test` behind, contrary to the claim's "without leaving
a partial marker file behind". -/
theorem claim_C4_counterexample :
    (is_writable wWriteFail st0 "/Volumes/RAID/NukeCache").1 = false
    ∧ pjoin "/Volumes/RAID/NukeCache" ".write_test"
        ∈ (is_writable wWriteFail st0 "/Volumes/RAID/NukeCache").2.files :=
  ⟨by decide, by decide⟩

/-- C4 amended: the probe creates the fixed-name marker `.write_test` in the
candidate directory, writes a payload and deletes it; any failure makes it
return `false` without crashing (totality of the embedding); a failure at
open leaves no marker, but a failure during the write or the delete leaves
the marker file behind; on success the marker is removed. -/
theorem claim_C4_probe_behavior (w : World) (st : SelectorState) (path : String) :
    (w.probeOf path ≠ ProbeOutcome.ok → (is_writable w st path).1 = false)
    ∧ (w.probeOf path = ProbeOutcome.openFail → (is_writable w st path).2 = st)
    ∧ (w.probeOf path = ProbeOutcome.writeFail ∨ w.probeOf path = ProbeOutcome.removeFail →
        (is_writable w st path).1 = false
        ∧ joinOS w.os path ".write_test" ∈ (is_writable w st path).2.files)
    ∧ (w.probeOf path = ProbeOutcome.ok →
        (is_writable w st path).1 = true
        ∧ joinOS w.os path ".write_test" ∉ (is_writable w st path).2.files) := by
  refine ⟨?_, ?_, ?_, ?_⟩
  · intro h
    cases hp : w.probeOf path
    · simp [is_writable, hp]
    · simp [is_writable, hp]
    · simp [is_writable, hp]
    · exact absurd hp h
  · intro h
    simp [is_writable, h]
  · intro h
    rcases h with h | h <;>
      refine ⟨by simp [is_writable, h], ?_⟩ <;>
      · simp only [is_writable, h, addFile]
        split
        · assumption
        · exact List.mem_cons_self _ _
  · intro h
    refine ⟨by simp [is_writable, h], ?_⟩
    simp only [is_writable, h, removeFile]
    intro hc
    have := List.of_mem_filter hc
    simp at this

/-- C4 witness: a write failure leaves the marker; a fully successful probe
returns true and leaves no marker. -/
theorem claim_C4_witness :
    ((is_writable wWriteFail st0 "/Volumes/RAID").1 = false
      ∧ pjoin "/Volumes/RAID" ".write_test"
          ∈ (is_writable wWriteFail st0 "/Volumes/RAID").2.files)
    ∧ ((is_writable wDarwin st0 "/Volumes/RAID").1 = true
      ∧ pjoin "/Volumes/RAID" ".write_test"
          ∉ (is_writable wDarwin st0 "/Volumes/RAID").2.files) :=
  ⟨(claim_C4_probe_behavior wWriteFail st0 "/Volumes/RAID").2.2.1 (Or.inl (by decide)),
   (claim_C4_probe_behavior wDarwin st0 "/Volumes/RAID").2.2.2 (by decide)⟩

/-- C5: on macOS/Linux the network decision comes from the first `mount`
output line containing the volume path as a case-sensitive substring — the
check returns exactly whether that line also contains one of the tokens
smbfs, nfs, afp, cifs, webdav — and when no line contains the volume path
the volume is treated as local. -/
theorem claim_C5_mount_table_parsing (w : World) (vp line : String)
    (pre post lines : List String) :
    ((w.os = OS.darwin ∨ w.os = OS.linux) →
      w.mountCmd = Except.ok (pre ++ line :: post) →
      (∀ l ∈ pre, substr_in vp l = false) →
      substr_in vp line = true →
      is_network_drive w vp = network_filesystems.any (fun fs => substr_in fs line))
    ∧ ((w.os = OS.darwin ∨ w.os = OS.linux) →
      w.mountCmd = Except.ok lines →
      (∀ l ∈ lines, substr_in vp l = false) →
      is_network_drive w vp = false) := by
  constructor
  · intro hos hcmd hpre hline
    rcases hos with hos | hos <;>
      simp only [is_network_drive, hos, hcmd] <;>
      exact scanMountLines_first vp line post pre hpre hline
  · intro hos hcmd hnone
    rcases hos with hos | hos <;>
      simp only [is_network_drive, hos, hcmd] <;>
      exact scanMountLines_none vp lines hnone

/-- C5 witness: `NetVol`'s line is the first containing its mount root, and
the smbfs token makes the detector return true. -/
theorem claim_C5_witness :
    is_network_drive wDarwin "/Volumes/NetVol"
      = network_filesystems.any (fun fs =>
          substr_in fs "//user@server/NetVol on /Volumes/NetVol (smbfs, nodev, nosuid)") :=
  (claim_C5_mount_table_parsing wDarwin "/Volumes/NetVol"
      "//user@server/NetVol on /Volumes/NetVol (smbfs, nodev, nosuid)"
      ["/dev/disk2 on /Volumes/RAID (apfs, local, journaled)"] [] []).1
    (Or.inl rfl) rfl (by decide) (by decide)

/-- C6: when the mount (or net use) command exits nonzero, the network check
returns false (fail-open), and a mounted, creatable, writable candidate is
then selected — the candidate is not disqualified by the failed check and
falls through to the directory-creation and writability tests. -/
theorem claim_C6_query_failure_fail_open (w : World) (vp volume cache_dir : String)
    (rest : List String) (st : SelectorState) :
    ((w.os = OS.darwin ∨ w.os = OS.linux) → w.mountCmd = Except.error () →
      is_network_drive w vp = false)
    ∧ (w.os = OS.windows → w.netUseCmd = Except.error () →
      is_network_drive w vp = false)
    ∧ (w.os = OS.darwin → w.mountCmd = Except.error () →
      pjoin "/Volumes" volume ∈ w.mounted →
      canEnsure w st (pjoin (pjoin "/Volumes" volume) cache_dir) = true →
      w.probeOf (pjoin (pjoin "/Volumes" volume) cache_dir) = ProbeOutcome.ok →
      (find_suitable_cache_path_macos w cache_dir (volume :: rest) st).1
        = some (pjoin (pjoin "/Volumes" volume) cache_dir)) := by
  refine ⟨?_, ?_, ?_⟩
  · intro hos hcmd
    rcases hos with hos | hos
    · simp [is_network_drive, hos, hcmd]
    · simp [is_network_drive, hos, hcmd]
  · intro hos hcmd
    simp [is_network_drive, hos, hcmd]
  · intro hos hcmd hm hens hprobe
    have hnet : is_network_drive w (pjoin "/Volumes" volume) = false := by
      simp [is_network_drive, hos, hcmd]
    have hs : suitable w st "/Volumes" cache_dir volume = true := by
      simp [suitable, hm, hnet, hens, hprobe]
    show (find_suitable_posix w "/Volumes" cache_dir (volume :: rest) st).1 = _
    rw [find_posix_step_suitable hs rest]

/-- C6 witness: with a failing `mount` command, the mounted `RAID` volume is
still selected. -/
theorem claim_C6_witness :
    is_network_drive wErr "/Volumes/RAID" = false
    ∧ (find_suitable_cache_path_macos wErr "NukeCache" ["RAID"] st0).1
        = some (pjoin (pjoin "/Volumes" "RAID") "NukeCache") :=
  ⟨(claim_C6_query_failure_fail_open wErr "/Volumes/RAID" "RAID" "NukeCache" [] st0).1
      (Or.inl rfl) rfl,
   (claim_C6_query_failure_fail_open wErr "/Volumes/RAID" "RAID" "NukeCache" [] st0).2.2
      rfl rfl (by decide) (by decide) (by decide)⟩

/-- C7: a constructor run never deletes or mutates a pre-existing directory:
every directory present before is present after, every directory present
after was present before or was created by a successful `os.makedirs`, and
ensuring an already-existing directory returns true with no state change. -/
theorem claim_C7_no_directory_mutation (w : World) (vols : List String)
    (cache_dir : String) (st : SelectorState) :
    (∀ d ∈ st.dirs, d ∈ (SetDiskCache.run w vols cache_dir st).2.dirs)
    ∧ (∀ d ∈ (SetDiskCache.run w vols cache_dir st).2.dirs,
        d ∈ st.dirs ∨ w.mkdirOk d = true)
    ∧ (∀ p ∈ st.dirs, ensure_directory w st p = (true, st)) := by
  refine ⟨?_, ?_, ?_⟩
  · intro d hd
    exact (handle_goodExt w vols cache_dir st).1 hd
  · intro d hd
    exact (handle_goodExt w vols cache_dir st).2 d hd
  · intro p hp
    simp [ensure_directory, hp]

/-- C7 witness: a pre-existing directory survives a full macOS run, and
ensuring it is a no-op. -/
theorem claim_C7_witness :
    "/existing" ∈ (SetDiskCache.run wDarwin ["RAID"] "NukeCache" stDirs).2.dirs
    ∧ ensure_directory wDarwin stDirs "/existing" = (true, stDirs) :=
  ⟨(claim_C7_no_directory_mutation wDarwin ["RAID"] "NukeCache" stDirs).1
      "/existing" (by decide),
   (claim_C7_no_directory_mutation wDarwin ["RAID"] "NukeCache" stDirs).2.2
      "/existing" (by decide)⟩

/-- C8: selection is idempotent — if a run finds `some p`, running the
constructor again from the resulting state finds the same `some p` (and, the
embedding being total, the second run cannot error on the directory already
existing).  The extra hypothesis is a realism condition used only on
Windows: `os.makedirs` cannot create a bare drive root. -/
theorem claim_C8_idempotent (w : World) (vols : List String) (cache_dir : String)
    (st : SelectorState) (p : String)
    (hwin : w.os = OS.windows → ∀ v ∈ vols, w.mkdirOk (v ++ ":\\") = false)
    (h : (SetDiskCache.run w vols cache_dir st).1.cache_path = some p) :
    (SetDiskCache.run w vols cache_dir
        (SetDiskCache.run w vols cache_dir st).2).1.cache_path = some p := by
  have h1 : (handle_os_specific_cache_location w vols cache_dir st).1 = some p := h
  have hge : GoodExt w st (handle_os_specific_cache_location w vols cache_dir st).2 :=
    handle_goodExt w vols cache_dir st
  show (handle_os_specific_cache_location w vols cache_dir
      (handle_os_specific_cache_location w vols cache_dir st).2).1 = some p
  rw [handle_value_congr w vols cache_dir hge hwin]
  exact h1

/-- C8 witness: running twice on the macOS example yields `RAID`'s path both
times. -/
theorem claim_C8_witness :
    (SetDiskCache.run wDarwin ["FastSSD", "RAID"] "NukeCache"
        (SetDiskCache.run wDarwin ["FastSSD", "RAID"] "NukeCache" st0).2).1.cache_path
      = some "/Volumes/RAID/NukeCache" :=
  claim_C8_idempotent wDarwin ["FastSSD", "RAID"] "NukeCache" st0
    "/Volumes/RAID/NukeCache" (fun hos => absurd hos (by decide)) (by decide)

/-- C9: with an empty preferred-volume list the macOS selector returns the
home fallback `join(home, cache_dir)`, provided that directory exists or can
be created and the write probe succeeds there. -/
theorem claim_C9_empty_list_home_fallback (w : World) (cache_dir : String)
    (st : SelectorState)
    (hens : canEnsure w st (pjoin w.home cache_dir) = true)
    (hprobe : w.probeOf (pjoin w.home cache_dir) = ProbeOutcome.ok) :
    (find_suitable_cache_path_macos w cache_dir [] st).1
      = some (pjoin w.home cache_dir) := by
  show (find_suitable_posix w "/Volumes" cache_dir [] st).1 = _
  simp [find_suitable_posix, ensure_directory_fst, hens, is_writable_fst, hprobe]

/-- C9 witness. -/
theorem claim_C9_witness :
    (find_suitable_cache_path_macos wDarwin "NukeCache" [] st0).1
      = some (pjoin wDarwin.home "NukeCache") :=
  claim_C9_empty_list_home_fallback wDarwin "NukeCache" st0 (by decide) (by decide)

/-- C10: on an operating system other than Darwin, Linux or Windows the
constructor records `cache_path = None` and performs no side effect at all:
directories, files and environment are all returned unchanged — no candidate
is probed. -/
theorem claim_C10_unsupported_os_noop (w : World) (vols : List String)
    (cache_dir : String) (st : SelectorState) (name : String)
    (hos : w.os = OS.other name) :
    SetDiskCache.run w vols cache_dir st
      = ({ preferred_volumes := vols, cache_dir := cache_dir, cache_path := none }, st) := by
  simp [SetDiskCache.run, handle_os_specific_cache_location, hos]

/-- C10 witness. -/
theorem claim_C10_witness :
    SetDiskCache.run wOther ["RAID"] "NukeCache" st0
      = ({ preferred_volumes := ["RAID"], cache_dir := "NukeCache",
           cache_path := none }, st0) :=
  claim_C10_unsupported_os_noop wOther ["RAID"] "NukeCache" st0 "FreeBSD" rfl

end SetCacheDisk
